import Mathlib

/-!
A shallow embedding of `src/app.py` (bulk email list cleaner), covering the
functions the claims are about: `validate_email_syntax`, `check_mx_record`,
`is_disposable_email`, `verify_smtp`, `validate_email` and `process_csv`.

External effects (DNS resolution, the SMTP session) are modelled by a `World`
oracle supplied as an explicit argument: `World.dns` is the outcome of
`dns.resolver.resolve(domain, 'MX')` and `World.smtp host email` records, for
a probe against `host` on behalf of `email`, what each network step of the
SMTP session does (succeed, or raise which exception).  Rate limiting
(`time.sleep`) and progress reporting have no effect on any value the claims
mention and are omitted.  Machine integers do not occur (the only numbers are
SMTP reply codes and list lengths, which Python keeps as unbounded ints), so
`Nat` is used directly.
-/

namespace EmailCleaner

/-- Python `str.lower()` restricted to its ASCII action (the inputs in scope
are ASCII): lower-case every character.  `Char.toLower` lowers exactly
`'A'`..`'Z'`, matching `str.lower` on ASCII. -/
def pyLower (s : String) : String :=
  String.mk (s.data.map Char.toLower)

/-- Python `str.strip()`: remove leading and trailing whitespace. -/
def pyStrip (s : String) : String :=
  String.mk (((s.data.dropWhile Char.isWhitespace).reverse.dropWhile
    Char.isWhitespace).reverse)

/-- An input cell of the `Email Address` column: `none` models a missing cell
(pandas `NaN`, for which `pd.isna` is true and `str(...)` is `"nan"`),
`some s` a string cell. -/
abbrev Cell := Option String

/-- Python `str(email)` on a cell: `str(float('nan')) = "nan"`. -/
def strOf : Cell → String
  | none => "nan"
  | some s => s

/-- The normalized form `str(email).strip().lower()` (app.py line 88). -/
def normalize (email : Cell) : String :=
  pyLower (pyStrip (strOf email))

/-- Python `email.split('@')[1]`: the text between the first `'@'` and the
next `'@'` (or the end).  `none` when the string has no `'@'`, in which case
the Python indexing raises `IndexError` (handled by each caller's `except`). -/
def splitDomain (s : String) : Option String :=
  match s.data.dropWhile (fun c => c != '@') with
  | [] => none
  | _ :: rest => some (String.mk (rest.takeWhile (fun c => c != '@')))

/-- Character class `[a-zA-Z0-9._%+-]` of the local part of the regex at
app.py line 22. -/
def isLocalChar (c : Char) : Bool :=
  c.isAlpha || c.isDigit || c == '.' || c == '_' || c == '%' || c == '+' || c == '-'

/-- Character class `[a-zA-Z0-9.-]` of the domain part of the regex. -/
def isDomainChar (c : Char) : Bool :=
  c.isAlpha || c.isDigit || c == '.' || c == '-'

/-- Matcher for the suffix pattern `[a-zA-Z0-9.-]+\.[a-zA-Z]{2,}` applied to
everything after the `'@'`.  The final `[a-zA-Z]{2,}` contains no dot, so the
pattern's explicit `\.` can only be the last dot of the text; the text
matches iff what precedes that last dot is a nonempty run of domain
characters and what follows it is at least two letters.  (The head dropped
by the wildcard pattern is necessarily that `'.'`: `dropWhile` stops exactly
at the first `'.'` of the reversal.) -/
def domainTailMatch (cs : List Char) : Bool :=
  match cs.reverse.dropWhile (fun c => c != '.') with
  | [] => false
  | _ :: midRev =>
    !midRev.isEmpty && midRev.all isDomainChar &&
      decide (2 ≤ (cs.reverse.takeWhile (fun c => c != '.')).length) &&
      (cs.reverse.takeWhile (fun c => c != '.')).all Char.isAlpha

/-- Core of the anchored regex `^[a-zA-Z0-9._%+-]+@[a-zA-Z0-9.-]+\.[a-zA-Z]{2,}`
matched against the whole character list.  No character class contains `'@'`,
so a match must place the pattern's `'@'` at the first (and only) `'@'` of
the input: everything before it is the nonempty local part, everything after
it must match the domain tail.  (The head dropped by the wildcard pattern is
necessarily that `'@'`.) -/
def matchCore (cs : List Char) : Bool :=
  match cs.dropWhile (fun c => c != '@') with
  | [] => false
  | _ :: rest =>
    !(cs.takeWhile (fun c => c != '@')).isEmpty &&
      (cs.takeWhile (fun c => c != '@')).all isLocalChar &&
      domainTailMatch rest

/-- `validate_email_syntax` (app.py lines 20-23):
`re.match(r'^[a-zA-Z0-9._%+-]+@[a-zA-Z0-9.-]+\.[a-zA-Z]{2,}$', str(email))`.
Python's `$` also matches just before one trailing `'\n'`, which the second
disjunct reproduces (the classes exclude `'\n'`, so a trailing newline can
only be absorbed by `$`). -/
def validate_email_syntax (email : String) : Bool :=
  matchCore email.data ||
    (match email.data.getLast? with
     | some c => c == '\n' && matchCore email.data.dropLast
     | none => false)

/-- `DISPOSABLE_DOMAINS` (app.py lines 13-18). -/
def DISPOSABLE_DOMAINS : List String :=
  ["mailinator.com", "guerrillamail.com", "temp-mail.org", "throwaway.email",
   "10minutemail.com", "trashmail.com", "tempmail.com", "yopmail.com",
   "maildrop.cc", "mohmal.com", "sharklasers.com", "guerrillamailblock.com",
   "grr.la", "spam4.me", "emailondeck.com", "fakeinbox.com"]

/-- `is_disposable_email` (app.py lines 33-39):
`email.split('@')[1].lower() in DISPOSABLE_DOMAINS`, with the bare `except`
returning `False` when the indexing fails (no `'@'`). -/
def is_disposable_email (email : String) : Bool :=
  match splitDomain email with
  | some d => DISPOSABLE_DOMAINS.contains (pyLower d)
  | none => false

/-- One MX record as the resolver returns it: a preference value and the
exchange host (already rendered as the string `str(record.exchange)`). -/
structure MXRecord where
  preference : Nat
  exchange : String
deriving DecidableEq

/-- Failure of `dns.resolver.resolve(domain, 'MX')`.  All four alternatives
are `Exception` subclasses in Python; the embedding keeps the causes the
source names plus a catch-all. -/
inductive DnsErr where
  | nxdomain
  | noAnswer
  | noNameservers
  | other
deriving DecidableEq

/-- Exceptions an SMTP-session step can raise, named after the handlers at
app.py lines 74-81 (`other` is everything reaching `except Exception`). -/
inductive SmtpExc where
  | serverDisconnected
  | connectError
  | timeout
  | other
deriving DecidableEq

/-- Outcome of one network step of the SMTP session (connect/helo/mail/quit). -/
inductive StepResult where
  | ok
  | exc (e : SmtpExc)
deriving DecidableEq

/-- Outcome of `server.rcpt(email)`: a reply `(code, message)` — only the
code is consulted — or a raised exception. -/
inductive RcptResult where
  | reply (code : Nat)
  | exc (e : SmtpExc)
deriving DecidableEq

/-- What each step of one SMTP session does, as fixed by the external world
(the probed server's behavior).  A step listed after a raising step is never
executed; its field is simply irrelevant then. -/
structure SmtpSession where
  connectStep : StepResult
  heloStep : StepResult
  mailStep : StepResult
  rcptStep : RcptResult
  quitStep : StepResult
deriving DecidableEq

/-- The external world: the (deterministic) DNS answer for each domain's MX
query, and the SMTP session each (host, email) probe would experience. -/
structure World where
  dns : String → Except DnsErr (List MXRecord)
  smtp : String → String → SmtpSession

/-- `check_mx_record` (app.py lines 25-31): `True` when the resolve call
succeeds; the `except` clause includes `Exception`, so every failure — the
three named resolver errors and anything else — returns `False`, and nothing
propagates to the caller. -/
def check_mx_record (w : World) (domain : String) : Bool :=
  match w.dns domain with
  | .ok _ => true
  | .error _ => false

/-- The reason string each exception handler at app.py lines 74-81 returns
(paired with `None`). -/
def excReason : SmtpExc → String
  | .serverDisconnected => "Server disconnected"
  | .connectError => "Connection failed"
  | .timeout => "Timeout"
  | .other => "SMTP check failed"

/-- Whether the connection the probe opened was opened / was closed when
`verify_smtp` returned. -/
structure ProbeTrace where
  opened : Bool
  closed : Bool
deriving DecidableEq

/-- The SMTP session of `verify_smtp` (app.py lines 57-81): connect, helo,
mail, rcpt, quit in order, each step's exception jumping to the matching
handler, which returns `(None, reason)`.  `server.quit()` runs BEFORE the
reply code is inspected, so a raising quit also yields `None`.

The trace records the socket state on return.  A connection is opened by a
successful `connect`; a failing connect leaves no socket behind
(`socket.create_connection` closes its own socket before propagating a
connect-stage error, and `SMTP.connect`'s banner read goes through
`getreply`, below).  After a successful connect, every failing step reaches
the caller with the socket already closed by smtplib itself: `SMTP.send`
and `SMTP.getreply` wrap their I/O in `except OSError: self.close(); raise
SMTPServerDisconnected(...)` — and `socket.timeout` IS an `OSError`
(`TimeoutError`) — while `getreply` also closes before raising on EOF and
on over-long lines, and a successful `quit` closes.  So every exception
branch after connect carries `closed := true`. -/
def runSessionFull (s : SmtpSession) : (Option Bool × String) × ProbeTrace :=
  match s.connectStep with
  | .exc e => ((none, excReason e), ⟨false, false⟩)
  | .ok =>
    match s.heloStep with
    | .exc e => ((none, excReason e), ⟨true, true⟩)
    | .ok =>
      match s.mailStep with
      | .exc e => ((none, excReason e), ⟨true, true⟩)
      | .ok =>
        match s.rcptStep with
        | .exc e => ((none, excReason e), ⟨true, true⟩)
        | .reply code =>
          match s.quitStep with
          | .exc e => ((none, excReason e), ⟨true, true⟩)
          | .ok =>
            if code = 250 then ((some true, "Valid"), ⟨true, true⟩)
            else ((some false, "SMTP rejected"), ⟨true, true⟩)

/-- `mx_host = str(mx_records[0].exchange)` (app.py line 53): the first
record the resolver returned, with no preference sorting.  `none` models the
`IndexError` of `mx_records[0]` on an empty answer (swallowed by the inner
bare `except`). -/
def mx_host_of (records : List MXRecord) : Option String :=
  records.head?.map (fun r => r.exchange)

/-- `verify_smtp` (app.py lines 41-81) together with its connection trace.
The outer `try` covers the domain split (no `'@'` raises `IndexError`,
reaching `except Exception` → `(None, "SMTP check failed")`); the inner
`try` around the resolve call and the `[0]` indexing returns
`(False, "No MX record")` on any failure. -/
def verify_smtp_full (w : World) (email : String) : (Option Bool × String) × ProbeTrace :=
  match splitDomain email with
  | none => ((none, "SMTP check failed"), ⟨false, false⟩)
  | some domain =>
    match w.dns domain with
    | .error _ => ((some false, "No MX record"), ⟨false, false⟩)
    | .ok records =>
      match mx_host_of records with
      | none => ((some false, "No MX record"), ⟨false, false⟩)
      | some host => runSessionFull (w.smtp host email)

/-- The value `verify_smtp` returns to its caller (`(is_valid, reason)` with
`is_valid ∈ {True, False, None}`). -/
def verify_smtp (w : World) (email : String) : Option Bool × String :=
  (verify_smtp_full w email).1

/-- `validate_email` (app.py lines 83-124).  `seen_emails` is the dedup set
(modelled as a list with membership).  `rate_limit_delay`/`time.sleep` only
spends time and is omitted. -/
def validate_email (w : World) (email : Cell) (seen : List String)
    (use_smtp : Bool) : Bool × String :=
  if email.isNone ∨ normalize email = "" ∨ normalize email = "nan" then
    (false, "Empty email")
  else if normalize email ∈ seen then
    (false, "Duplicate")
  else if ¬ validate_email_syntax (normalize email) then
    (false, "Invalid syntax")
  else if is_disposable_email (normalize email) then
    (false, "Disposable email")
  else
    match splitDomain (normalize email) with
    | none => (false, "Invalid format")
    | some domain =>
      if ¬ check_mx_record w domain then
        (false, "No MX record")
      else if use_smtp then
        match verify_smtp w (normalize email) with
        | (some false, smtp_reason) => (false, smtp_reason)
        | _ => (true, "Valid")
      else
        (true, "Valid")

/-- The loop body of `process_csv` (app.py lines 134-160): statuses in input
order, threading the dedup set, which is extended with
`str(email).strip().lower()` exactly when the outcome is valid. -/
def processRows (w : World) (use_smtp : Bool) :
    List Cell → List String → List String
  | [], _ => []
  | e :: rest, seen =>
    if (validate_email w e seen use_smtp).1 then
      "Valid" :: processRows w use_smtp rest (normalize e :: seen)
    else
      ("Invalid (" ++ (validate_email w e seen use_smtp).2 ++ ")") ::
        processRows w use_smtp rest seen

/-- `process_csv` (app.py lines 126-169) restricted to what it computes from
the `Email Address` column: the Status strings, `valid_count` (the number of
`'Valid'` statuses) and `invalid_count = total_rows - valid_count`.
Progress/ETA reporting writes to the UI only and is omitted. -/
def process_csv (w : World) (df : List Cell) (use_smtp : Bool) :
    List String × Nat × Nat :=
  let statuses := processRows w use_smtp df []
  let valid_count := statuses.countP (fun s => s == "Valid")
  (statuses, valid_count, df.length - valid_count)

/-- The closed set of failure reasons `validate_email` can return (every
`return False, reason` reachable from app.py lines 83-124, with the two
definitive reasons of `verify_smtp` substituted for `smtp_reason`). -/
def REASONS : List String :=
  ["Empty email", "Duplicate", "Invalid syntax", "Disposable email",
   "Invalid format", "No MX record", "SMTP rejected"]

theorem normalize_none : normalize (none : Cell) = "nan" := by decide

/-- The empty/NaN guard at app.py line 91 depends only on the normalized
string: a missing cell normalizes to `"nan"`, which the guard also catches. -/
theorem emptyGuard_iff (e : Cell) :
    (e.isNone = true ∨ normalize e = "" ∨ normalize e = "nan") ↔
      (normalize e = "" ∨ normalize e = "nan") := by
  cases e with
  | none => simp [normalize_none]
  | some s => simp

/-- A string whose domain part is in the disposable set is neither `""` nor
`"nan"` (those have no `'@'`). -/
theorem disposable_props {s : String} (h : is_disposable_email s = true) :
    ¬(s = "" ∨ s = "nan") := by
  rintro (rfl | rfl) <;> exact absurd h (by decide)

theorem wrap_ne_valid (r : String) : ("Invalid (" ++ r ++ ")" : String) ≠ "Valid" := by
  intro h
  have hl := congrArg String.length h
  rw [String.length_append, String.length_append] at hl
  have h9 : ("Invalid (" : String).length = 9 := rfl
  have h1 : (")" : String).length = 1 := rfl
  have h5 : ("Valid" : String).length = 5 := rfl
  rw [h9, h1, h5] at hl
  omega

theorem length_processRows (w : World) (u : Bool) :
    ∀ (df : List Cell) (seen : List String),
      (processRows w u df seen).length = df.length := by
  intro df
  induction df with
  | nil => intro seen; rfl
  | cons e rest ih =>
    intro seen
    by_cases hc : (validate_email w e seen u).1 = true <;>
      simp [processRows, hc, ih]

/-- The only definitive-`False` outcome the SMTP session itself can produce
is `"SMTP rejected"` (every exception path yields `None`). -/
theorem runSession_false_reason (s : SmtpSession)
    (h : (runSessionFull s).1.1 = some false) :
    (runSessionFull s).1.2 = "SMTP rejected" := by
  rcases s with ⟨c, he, m, r, q⟩
  cases c <;> cases he <;> cases m <;> cases r <;> cases q <;>
    simp [runSessionFull] at h ⊢ <;> split at h <;> simp_all

/-- A definitive-`False` return of `verify_smtp` carries one of the two
reasons `"No MX record"` or `"SMTP rejected"`. -/
theorem verify_false_reason (w : World) (s : String)
    (h : (verify_smtp w s).1 = some false) :
    (verify_smtp w s).2 = "No MX record" ∨ (verify_smtp w s).2 = "SMTP rejected" := by
  unfold verify_smtp verify_smtp_full at h ⊢
  cases hsd : splitDomain s with
  | none => simp [hsd] at h
  | some d =>
    simp only [hsd] at h ⊢
    cases hdns : w.dns d with
    | error err => simp only [hdns]; exact Or.inl trivial
    | ok recs =>
      simp only [hdns] at h ⊢
      cases hmx : mx_host_of recs with
      | none => simp only [hmx]; exact Or.inl trivial
      | some host =>
        simp only [hmx] at h ⊢
        exact Or.inr (runSession_false_reason _ h)

/-- A valid outcome passed every guard: the address is non-empty/non-`nan`,
not already seen, syntactically valid and not disposable. -/
theorem validate_true (w : World) (e : Cell) (seen : List String) (u : Bool)
    (h : (validate_email w e seen u).1 = true) :
    ¬(normalize e = "" ∨ normalize e = "nan") ∧ normalize e ∉ seen ∧
      validate_email_syntax (normalize e) = true ∧
      is_disposable_email (normalize e) = false := by
  by_cases h1 : (e.isNone = true ∨ normalize e = "" ∨ normalize e = "nan")
  · exfalso; unfold validate_email at h; rw [if_pos h1] at h; simp at h
  by_cases h2 : normalize e ∈ seen
  · exfalso; unfold validate_email at h; rw [if_neg h1, if_pos h2] at h; simp at h
  by_cases h3 : validate_email_syntax (normalize e) = true
  case neg =>
    exfalso; unfold validate_email at h
    rw [if_neg h1, if_neg h2, if_pos h3] at h; simp at h
  by_cases h4 : is_disposable_email (normalize e) = true
  · exfalso; unfold validate_email at h
    rw [if_neg h1, if_neg h2, if_neg (by simpa using h3), if_pos h4] at h
    simp at h
  exact ⟨fun hc => h1 ((emptyGuard_iff e).mpr hc), h2, h3, by simpa using h4⟩

/-- The outcome is exactly `(False, "Duplicate")` iff the empty/NaN guard
passes and the normalized address is in the dedup set: the duplicate check is
the second check and nothing later produces the reason `"Duplicate"`. -/
theorem validate_dup_iff (w : World) (e : Cell) (seen : List String) (u : Bool) :
    validate_email w e seen u = (false, "Duplicate") ↔
      (¬(normalize e = "" ∨ normalize e = "nan") ∧ normalize e ∈ seen) := by
  constructor
  · intro h
    by_cases h1 : (e.isNone = true ∨ normalize e = "" ∨ normalize e = "nan")
    · exfalso; unfold validate_email at h; rw [if_pos h1] at h; simp at h
    by_cases h2 : normalize e ∈ seen
    · exact ⟨fun hc => h1 ((emptyGuard_iff e).mpr hc), h2⟩
    exfalso
    unfold validate_email at h
    rw [if_neg h1, if_neg h2] at h
    by_cases h3 : validate_email_syntax (normalize e) = true
    case neg => rw [if_pos (by simpa using h3)] at h; simp at h
    rw [if_neg (by simpa using h3)] at h
    by_cases h4 : is_disposable_email (normalize e) = true
    · rw [if_pos h4] at h; simp at h
    rw [if_neg h4] at h
    cases hsd : splitDomain (normalize e) with
    | none => simp [hsd] at h
    | some d =>
      simp only [hsd] at h
      by_cases h5 : check_mx_record w d = true
      case neg => rw [if_pos (by simpa using h5)] at h; simp at h
      rw [if_neg (by simpa using h5)] at h
      by_cases h6 : u = true
      · rw [if_pos h6] at h
        cases hv : verify_smtp w (normalize e) with
        | mk fst snd =>
          cases fst with
          | none => simp [hv] at h
          | some b =>
            cases b with
            | true => simp [hv] at h
            | false =>
              simp only [hv] at h
              have := verify_false_reason w (normalize e) (by rw [hv])
              rw [hv] at this
              rcases this with hr | hr <;> simp [hr] at h <;> simp_all
      · rw [if_neg h6] at h; simp at h
  · rintro ⟨h1, h2⟩
    unfold validate_email
    rw [if_neg (fun hc => h1 ((emptyGuard_iff e).mp hc)), if_pos h2]

/-- Every outcome is `(True, "Valid")` or `(False, r)` with `r` in the closed
reason set. -/
theorem validate_cases (w : World) (e : Cell) (seen : List String) (u : Bool) :
    validate_email w e seen u = (true, "Valid") ∨
      ((validate_email w e seen u).1 = false ∧
        (validate_email w e seen u).2 ∈ REASONS) := by
  unfold validate_email
  by_cases h1 : (e.isNone = true ∨ normalize e = "" ∨ normalize e = "nan")
  · rw [if_pos h1]; right; simp [REASONS]
  rw [if_neg h1]
  by_cases h2 : normalize e ∈ seen
  · rw [if_pos h2]; right; simp [REASONS]
  rw [if_neg h2]
  by_cases h3 : validate_email_syntax (normalize e) = true
  case neg => rw [if_pos (by simpa using h3)]; right; simp [REASONS]
  rw [if_neg (by simpa using h3)]
  by_cases h4 : is_disposable_email (normalize e) = true
  · rw [if_pos h4]; right; simp [REASONS]
  rw [if_neg h4]
  cases hsd : splitDomain (normalize e) with
  | none => right; simp [REASONS]
  | some d =>
    simp only []
    by_cases h5 : check_mx_record w d = true
    case neg => rw [if_pos (by simpa using h5)]; right; simp [REASONS]
    rw [if_neg (by simpa using h5)]
    by_cases h6 : u = true
    · rw [if_pos h6]
      cases hv : verify_smtp w (normalize e) with
      | mk fst snd =>
        cases fst with
        | none => left; rfl
        | some b =>
          cases b with
          | true => left; rfl
          | false =>
            right
            have := verify_false_reason w (normalize e) (by rw [hv])
            rw [hv] at this
            rcases this with hr | hr <;> subst hr <;> simp [REASONS]
    · rw [if_neg h6]; left; rfl

/-- The normalized address of row `i` (as the dedup logic computes it). -/
def normAt (df : List Cell) (i : Nat) : Option String :=
  df[i]?.map normalize

/-- A row whose status is `"Valid"` holds a cell that passed every guard; in
particular its normalized form is neither `""` nor `"nan"`. -/
theorem valid_get (w : World) (u : Bool) :
    ∀ (df : List Cell) (seen : List String) (i : Nat),
      (processRows w u df seen)[i]? = some "Valid" →
      ∃ e, df[i]? = some e ∧ ¬(normalize e = "" ∨ normalize e = "nan") := by
  intro df
  induction df with
  | nil => intro seen i h; simp [processRows] at h
  | cons e rest ih =>
    intro seen i h
    by_cases hc : (validate_email w e seen u).1 = true
    · rw [show processRows w u (e :: rest) seen =
          "Valid" :: processRows w u rest (normalize e :: seen) by
            simp [processRows, hc]] at h
      cases i with
      | zero => exact ⟨e, by simp, (validate_true w e seen u hc).1⟩
      | succ n =>
        obtain ⟨e', he', hp⟩ := ih (normalize e :: seen) n (by simpa using h)
        exact ⟨e', by simpa using he', hp⟩
    · rw [show processRows w u (e :: rest) seen =
          ("Invalid (" ++ (validate_email w e seen u).2 ++ ")") ::
            processRows w u rest seen by simp [processRows, hc]] at h
      cases i with
      | zero =>
        simp only [List.getElem?_cons_zero] at h
        exact absurd (Option.some.inj h) (wrap_ne_valid _)
      | succ n =>
        obtain ⟨e', he', hp⟩ := ih seen n (by simpa using h)
        exact ⟨e', by simpa using he', hp⟩

/-- Index shift for the earlier-valid-row condition across a valid head row. -/
theorem exists_shift_valid (e : Cell) (rest : List Cell) (T : List String)
    (x : String) (n : Nat) :
    (∃ i, i < n + 1 ∧ normAt (e :: rest) i = some x ∧
        ("Valid" :: T)[i]? = some "Valid") ↔
      (normalize e = x ∨
        ∃ i, i < n ∧ normAt rest i = some x ∧ T[i]? = some "Valid") := by
  constructor
  · rintro ⟨i, hi, hn, hv⟩
    cases i with
    | zero => left; simpa [normAt] using hn
    | succ i' =>
      right
      exact ⟨i', by omega, by simpa [normAt] using hn, by simpa using hv⟩
  · rintro (h | ⟨i', hi', hn, hv⟩)
    · exact ⟨0, by omega, by simp [normAt, h], by simp⟩
    · exact ⟨i' + 1, by omega, by simpa [normAt] using hn, by simpa using hv⟩

/-- Index shift across an invalid head row (whose status is never `"Valid"`). -/
theorem exists_shift_invalid (e : Cell) (rest : List Cell) (T : List String)
    (hw : String) (hne : hw ≠ "Valid") (x : String) (n : Nat) :
    (∃ i, i < n + 1 ∧ normAt (e :: rest) i = some x ∧
        (hw :: T)[i]? = some "Valid") ↔
      (∃ i, i < n ∧ normAt rest i = some x ∧ T[i]? = some "Valid") := by
  constructor
  · rintro ⟨i, hi, hn, hv⟩
    cases i with
    | zero =>
      simp only [List.getElem?_cons_zero] at hv
      exact absurd (Option.some.inj hv) hne
    | succ i' =>
      exact ⟨i', by omega, by simpa [normAt] using hn, by simpa using hv⟩
  · rintro ⟨i', hi', hn, hv⟩
    exact ⟨i' + 1, by omega, by simpa [normAt] using hn, by simpa using hv⟩

/-- Row `j` of a batch (run from an arbitrary initial dedup set `seen`) is
`"Invalid (Duplicate)"` exactly when its cell passes the empty/NaN guard and
its normalized form either is in `seen` or was already marked `"Valid"` at an
earlier row. -/
theorem dup_aux (w : World) (u : Bool) :
    ∀ (df : List Cell) (seen : List String) (j : Nat),
      (processRows w u df seen)[j]? = some "Invalid (Duplicate)" ↔
        ∃ e, df[j]? = some e ∧ ¬(normalize e = "" ∨ normalize e = "nan") ∧
          (normalize e ∈ seen ∨ ∃ i, i < j ∧ normAt df i = some (normalize e) ∧
            (processRows w u df seen)[i]? = some "Valid") := by
  intro df
  induction df with
  | nil => intro seen j; simp [processRows]
  | cons e rest ih =>
    intro seen j
    by_cases hc : (validate_email w e seen u).1 = true
    · rw [show processRows w u (e :: rest) seen =
          "Valid" :: processRows w u rest (normalize e :: seen) by
            simp [processRows, hc]]
      cases j with
      | zero =>
        simp only [List.getElem?_cons_zero]
        constructor
        · intro h
          exact absurd (Option.some.inj h) (by decide)
        · rintro ⟨e0, he0, hne, hmem | ⟨i, hi, _⟩⟩
          · cases Option.some.inj he0
            exact absurd hmem (validate_true w e seen u hc).2.1
          · omega
      | succ n =>
        simp only [List.getElem?_cons_succ]
        rw [ih (normalize e :: seen) n]
        constructor
        · rintro ⟨e0, he0, hne, hca⟩
          refine ⟨e0, he0, hne, ?_⟩
          rw [exists_shift_valid e rest _ (normalize e0) n]
          rcases hca with hmem | hex
          · rcases List.mem_cons.1 hmem with heq | hmem'
            · exact Or.inr (Or.inl heq.symm)
            · exact Or.inl hmem'
          · exact Or.inr (Or.inr hex)
        · rintro ⟨e0, he0, hne, hca⟩
          refine ⟨e0, he0, hne, ?_⟩
          rw [exists_shift_valid e rest _ (normalize e0) n] at hca
          rcases hca with hmem | heq | hex
          · exact Or.inl (List.mem_cons.2 (Or.inr hmem))
          · exact Or.inl (List.mem_cons.2 (Or.inl heq.symm))
          · exact Or.inr hex
    · rw [show processRows w u (e :: rest) seen =
          ("Invalid (" ++ (validate_email w e seen u).2 ++ ")") ::
            processRows w u rest seen by simp [processRows, hc]]
      cases j with
      | zero =>
        simp only [List.getElem?_cons_zero]
        constructor
        · intro h
          have hwr : "Invalid (" ++ (validate_email w e seen u).2 ++ ")" =
              "Invalid (Duplicate)" := Option.some.inj h
          have hdup : validate_email w e seen u = (false, "Duplicate") := by
            rcases validate_cases w e seen u with hv | ⟨hf, hr⟩
            · rw [hv] at hwr; exact absurd hwr (by decide)
            · simp only [REASONS, List.mem_cons, List.not_mem_nil, or_false] at hr
              rcases hr with h' | h' | h' | h' | h' | h' | h' <;>
                rw [h'] at hwr <;> first
                  | exact absurd hwr (by decide)
                  | (rw [Prod.ext_iff]; exact ⟨hf, h'⟩)
          rw [validate_dup_iff] at hdup
          exact ⟨e, rfl, hdup.1, Or.inl hdup.2⟩
        · rintro ⟨e0, he0, hne, hmem | ⟨i, hi, _⟩⟩
          · cases Option.some.inj he0
            have hd : validate_email w e seen u = (false, "Duplicate") :=
              (validate_dup_iff w e seen u).mpr ⟨hne, hmem⟩
            rw [hd]
            decide
          · omega
      | succ n =>
        simp only [List.getElem?_cons_succ]
        rw [ih seen n]
        constructor
        · rintro ⟨e0, he0, hne, hmem | hex⟩
          · exact ⟨e0, he0, hne, Or.inl hmem⟩
          · exact ⟨e0, he0, hne, Or.inr
              ((exists_shift_invalid e rest _ _ (wrap_ne_valid _)
                (normalize e0) n).mpr hex)⟩
        · rintro ⟨e0, he0, hne, hmem | hex⟩
          · exact ⟨e0, he0, hne, Or.inl hmem⟩
          · exact ⟨e0, he0, hne, Or.inr
              ((exists_shift_invalid e rest _ _ (wrap_ne_valid _)
                (normalize e0) n).mp hex)⟩

/-- An SMTP session ran to the end with no step raising: connect, helo,
mail and quit succeeded and rcpt returned a reply. -/
def sessionCompletes (s : SmtpSession) : Bool :=
  match s.connectStep, s.heloStep, s.mailStep, s.rcptStep, s.quitStep with
  | .ok, .ok, .ok, .reply _, .ok => true
  | _, _, _, _, _ => false

/-- On every session, the trace's `closed` flag equals its `opened` flag: a
connection that was opened is closed on every termination path (successful
quit, or smtplib's internal close inside the raising step), and `closed` is
only set when a connection was opened. -/
theorem runSession_trace (s : SmtpSession) :
    (runSessionFull s).2.closed = (runSessionFull s).2.opened := by
  rcases s with ⟨c, hh, m, r, q⟩
  cases c <;> cases hh <;> cases m <;> cases r <;> cases q <;>
    simp [runSessionFull] <;> split <;> simp

theorem mx_host_of_cons (r : MXRecord) (rs : List MXRecord) :
    mx_host_of (r :: rs) = some r.exchange := rfl

/-- When the domain splits off and its MX resolution yields a nonempty
record list, the probe is exactly the SMTP session against the FIRST
record's exchange host. -/
theorem verify_smtp_eq_session (w : World) (s d : String) (r : MXRecord)
    (rs : List MXRecord) (h1 : splitDomain s = some d)
    (h2 : w.dns d = .ok (r :: rs)) :
    verify_smtp w s = (runSessionFull (w.smtp r.exchange s)).1 := by
  unfold verify_smtp verify_smtp_full
  simp only [h1, h2, mx_host_of_cons]

/-- A session that does not complete yields `None` (an exception handler's
return value). -/
theorem runSession_incomplete (s : SmtpSession)
    (h : sessionCompletes s = false) : (runSessionFull s).1.1 = none := by
  rcases s with ⟨c, hh, m, r, q⟩
  cases c <;> cases hh <;> cases m <;> cases r <;> cases q <;>
    simp [sessionCompletes, runSessionFull] at h ⊢

/-- With every pre-SMTP check passing and SMTP enabled, `validate_email`
reduces to the classification of the `verify_smtp` result at app.py
lines 117-124. -/
theorem validate_smtp_branch (w : World) (email : Cell) (seen : List String)
    (d : String)
    (h1 : ¬(normalize email = "" ∨ normalize email = "nan"))
    (h2 : normalize email ∉ seen)
    (h3 : validate_email_syntax (normalize email) = true)
    (h4 : is_disposable_email (normalize email) = false)
    (h5 : splitDomain (normalize email) = some d)
    (h6 : check_mx_record w d = true) :
    validate_email w email seen true =
      (match verify_smtp w (normalize email) with
       | (some false, smtp_reason) => (false, smtp_reason)
       | _ => (true, "Valid")) := by
  unfold validate_email
  rw [if_neg (fun hc => h1 ((emptyGuard_iff email).mp hc)), if_neg h2,
    if_neg (show ¬¬ validate_email_syntax (normalize email) = true by simp [h3]),
    if_neg (show ¬ is_disposable_email (normalize email) = true by simp [h4])]
  simp only [h5]
  rw [if_neg (show ¬¬ check_mx_record w d = true by simp [h6])]
  simp

/-- Every status string in a batch is `"Valid"` or wraps a reason from the
closed set. -/
theorem statuses_mem (w : World) (u : Bool) :
    ∀ (df : List Cell) (seen : List String), ∀ s ∈ processRows w u df seen,
      s = "Valid" ∨ ∃ r ∈ REASONS, s = "Invalid (" ++ r ++ ")" := by
  intro df
  induction df with
  | nil => intro seen s hs; simp [processRows] at hs
  | cons e rest ih =>
    intro seen s hs
    by_cases hc : (validate_email w e seen u).1 = true
    · rw [show processRows w u (e :: rest) seen =
          "Valid" :: processRows w u rest (normalize e :: seen) by
            simp [processRows, hc]] at hs
      rcases List.mem_cons.1 hs with h | h
      · exact Or.inl h
      · exact ih (normalize e :: seen) s h
    · rw [show processRows w u (e :: rest) seen =
          ("Invalid (" ++ (validate_email w e seen u).2 ++ ")") ::
            processRows w u rest seen by simp [processRows, hc]] at hs
      rcases List.mem_cons.1 hs with h | h
      · rcases validate_cases w e seen u with hv | ⟨_, hr⟩
        · exact absurd hc (by simp [hv])
        · exact Or.inr ⟨(validate_email w e seen u).2, hr, h⟩
      · exact ih seen s h

/-- `takeWhile` only sees the left part of an append when that part already
contains an element failing the predicate. -/
theorem takeWhile_append_left {α : Type} (p : α → Bool) (xs ys : List α)
    (h : xs.dropWhile p ≠ []) :
    (xs ++ ys).takeWhile p = xs.takeWhile p := by
  induction xs with
  | nil => simp [List.dropWhile] at h
  | cons x xt ih =>
    by_cases hp : p x = true
    · simp only [List.dropWhile_cons, hp, if_true] at h
      simp only [List.cons_append, List.takeWhile_cons, hp, if_true]
      rw [ih h]
    · simp only [List.cons_append, List.takeWhile_cons, hp]
      simp

/-- The final dot-separated label of a string (the text after the last
`'.'`, the whole string when it has no dot). -/
def finalLabel (s : String) : List Char :=
  (s.data.reverse.takeWhile (fun c => c != '.')).reverse

/- Concrete worlds used by witnesses and counterexamples. -/

/-- A single-record MX answer. -/
def mxOk : List MXRecord := [⟨10, "mx.example."⟩]

/-- An SMTP session where every step succeeds and rcpt replies `code`. -/
def sessionAllOk (code : Nat) : SmtpSession := ⟨.ok, .ok, .ok, .reply code, .ok⟩

/-- MX resolves; every SMTP probe completes with reply 250. -/
def wAccept : World := ⟨fun _ => .ok mxOk, fun _ _ => sessionAllOk 250⟩

/-- MX resolves; every SMTP probe completes with reply 550. -/
def wReject : World := ⟨fun _ => .ok mxOk, fun _ _ => sessionAllOk 550⟩

/-- MX resolves; the rcpt step of every SMTP session times out. -/
def wTimeoutRcpt : World :=
  ⟨fun _ => .ok mxOk, fun _ _ => ⟨.ok, .ok, .ok, .exc .timeout, .ok⟩⟩

/-- Every DNS MX resolution raises NXDOMAIN. -/
def wDnsFail : World := ⟨fun _ => .error .nxdomain, fun _ _ => sessionAllOk 250⟩

/-- Two MX records in resolver order, the second having the better (lower)
preference value. -/
def mxPref : List MXRecord := [⟨20, "mx-b.example."⟩, ⟨10, "mx-a.example."⟩]

/-- DNS answers with `mxPref`; the better-preference host `mx-a` accepts
(250) while `mx-b` rejects (550). -/
def wPref : World :=
  ⟨fun _ => .ok mxPref,
   fun host _ => if host = "mx-a.example." then sessionAllOk 250
     else sessionAllOk 550⟩

/-- What the spec's words prescribe for MX host selection ("the record with
the lowest preference value"), stated as its own definition for comparison
with the source's `mx_host_of`. -/
def lowestPreferenceHost (records : List MXRecord) : Option String :=
  (records.foldl
    (fun acc r =>
      match acc with
      | none => some r
      | some b => if r.preference < b.preference then some r else some b)
    none).map (fun r => r.exchange)

/-- C1: Duplicate law over a batch run.  Row `j` is `"Invalid (Duplicate)"`
exactly when some earlier row `i < j` with the same normalized address was
marked `"Valid"` (so an invalid earlier occurrence never causes a duplicate
rejection), and consequently two rows with the same normalized address are
never both `"Valid"` — a normalized address is marked Valid at most once per
run. -/
theorem c1_duplicate_law (w : World) (u : Bool) (df : List Cell) :
    (∀ j, (processRows w u df [])[j]? = some "Invalid (Duplicate)" ↔
      ∃ i, i < j ∧ (processRows w u df [])[i]? = some "Valid" ∧
        normAt df i = normAt df j) ∧
    (∀ i j, i < j → (processRows w u df [])[i]? = some "Valid" →
      (processRows w u df [])[j]? = some "Valid" →
      normAt df i ≠ normAt df j) := by
  have key : ∀ j, (processRows w u df [])[j]? = some "Invalid (Duplicate)" ↔
      ∃ i, i < j ∧ (processRows w u df [])[i]? = some "Valid" ∧
        normAt df i = normAt df j := by
    intro j
    rw [dup_aux w u df [] j]
    constructor
    · rintro ⟨e, hj, hne, hmem | ⟨i, hi, hn, hv⟩⟩
      · simp at hmem
      · exact ⟨i, hi, hv, by rw [hn]; simp [normAt, hj]⟩
    · rintro ⟨i, hi, hv, heq⟩
      obtain ⟨e', he', hne'⟩ := valid_get w u df [] i hv
      have hnj : normAt df j = some (normalize e') := by
        rw [← heq]; simp [normAt, he']
      rcases hj : df[j]? with _ | e
      · simp only [normAt, hj, Option.map_none'] at hnj
        exact absurd hnj (by simp)
      · have hne2 : normalize e = normalize e' := by
          simp only [normAt, hj, Option.map_some'] at hnj
          exact Option.some.inj hnj
        refine ⟨e, rfl, by rw [hne2]; exact hne', Or.inr ⟨i, hi, ?_, hv⟩⟩
        rw [hne2]; simp [normAt, he']
  refine ⟨key, ?_⟩
  intro i j hij hvi hvj heq
  have hdup := (key j).2 ⟨i, hij, hvi, heq⟩
  rw [hvj] at hdup
  exact absurd (Option.some.inj hdup) (by decide)

theorem c1_duplicate_law_witness :
    normAt [some "a@b.co", some "x@y.de"] 0 ≠
      normAt [some "a@b.co", some "x@y.de"] 1 :=
  (c1_duplicate_law wAccept false [some "a@b.co", some "x@y.de"]).2 0 1
    (by decide) (by decide) (by decide)

/-- C2: Short-circuit ordering.  An address (not already deduplicated) that
both fails the syntax check and has a disposable domain is rejected with
reason `"Invalid syntax"` — the earlier check wins, never
`"Disposable email"`. -/
theorem c2_syntax_precedes_disposable (w : World) (u : Bool) (email : Cell)
    (seen : List String)
    (h1 : validate_email_syntax (normalize email) = false)
    (h2 : is_disposable_email (normalize email) = true)
    (h3 : normalize email ∉ seen) :
    validate_email w email seen u = (false, "Invalid syntax") := by
  have hne := disposable_props h2
  unfold validate_email
  rw [if_neg (fun hc => hne ((emptyGuard_iff email).mp hc)), if_neg h3,
    if_pos (show ¬ validate_email_syntax (normalize email) = true by simp [h1])]

theorem c2_syntax_precedes_disposable_witness :
    validate_email wAccept (some "a b@mailinator.com") [] false =
      (false, "Invalid syntax") :=
  c2_syntax_precedes_disposable wAccept false (some "a b@mailinator.com") []
    (by decide) (by decide) (by simp)

/-- C4 counterexample: with MX resolution failing inside the probe,
`verify_smtp` does NOT return an inconclusive result (`None`); it returns
the definitive failure `(False, "No MX record")`, which the caller treats as
a row failure. -/
theorem c4_counterexample :
    (verify_smtp wDnsFail "z@example.com").1 ≠ none ∧
      verify_smtp wDnsFail "z@example.com" = (some false, "No MX record") := by
  decide

/-- C4 amended: when MX resolution for the address's domain fails inside the
probe, `verify_smtp` returns the definitive failure
`(False, "No MX record")` (not an inconclusive result), so a row reaching
the probe with a failing inner MX lookup is failed with reason
`"No MX record"`. -/
theorem c4_amended_probe_mx_fail (w : World) (email d : String)
    (err : DnsErr) (h1 : splitDomain email = some d)
    (h2 : w.dns d = .error err) :
    verify_smtp w email = (some false, "No MX record") := by
  unfold verify_smtp verify_smtp_full
  simp only [h1, h2]

theorem c4_amended_witness :
    verify_smtp wDnsFail "z@example.com" = (some false, "No MX record") :=
  c4_amended_probe_mx_fail wDnsFail "z@example.com" "example.com" .nxdomain
    (by decide) rfl

/-- C5: `check_mx_record` is total and collapses every DNS failure to
`false` (the `except` clause includes `Exception`, so nothing propagates),
and the pipeline then reports such a row as Invalid with reason
`"No MX record"`. -/
theorem c5_mx_failure_total (w : World) :
    (∀ domain err, w.dns domain = .error err →
      check_mx_record w domain = false) ∧
    (∀ (email : Cell) (seen : List String) (u : Bool) (d : String),
      ¬(normalize email = "" ∨ normalize email = "nan") →
      normalize email ∉ seen →
      validate_email_syntax (normalize email) = true →
      is_disposable_email (normalize email) = false →
      splitDomain (normalize email) = some d →
      check_mx_record w d = false →
      validate_email w email seen u = (false, "No MX record")) := by
  constructor
  · intro domain err h
    simp [check_mx_record, h]
  · intro email seen u d h1 h2 h3 h4 h5 h6
    unfold validate_email
    rw [if_neg (fun hc => h1 ((emptyGuard_iff email).mp hc)), if_neg h2,
      if_neg (show ¬¬ validate_email_syntax (normalize email) = true by
        simp [h3]),
      if_neg (show ¬ is_disposable_email (normalize email) = true by
        simp [h4])]
    simp only [h5]
    rw [if_pos (show ¬ check_mx_record w d = true by simp [h6])]

theorem c5_mx_failure_total_witness :
    check_mx_record wDnsFail "example.com" = false ∧
      validate_email wDnsFail (some "a@b.co") [] false =
        (false, "No MX record") :=
  ⟨(c5_mx_failure_total wDnsFail).1 "example.com" .nxdomain rfl,
   (c5_mx_failure_total wDnsFail).2 (some "a@b.co") [] false "b.co"
     (by decide) (by simp) (by decide) (by decide) (by decide) rfl⟩

/-- C7 counterexample: on a two-record answer whose SECOND record has the
lower (better) preference, the probe's host choice `mx_records[0]` is not
the lowest-preference host, and the probe's outcome is the 550 rejection of
the first-listed host even though the lowest-preference host would have
replied 250. -/
theorem c7_counterexample :
    mx_host_of mxPref ≠ lowestPreferenceHost mxPref ∧
      mx_host_of mxPref = some "mx-b.example." ∧
      lowestPreferenceHost mxPref = some "mx-a.example." ∧
      verify_smtp wPref "z@example.com" = (some false, "SMTP rejected") ∧
      (runSessionFull (wPref.smtp "mx-a.example." "z@example.com")).1 =
        (some true, "Valid") := by
  decide

/-- C7 amended: the probe connects to the exchange of the FIRST MX record
the resolver returned, regardless of preference values: its behavior is
exactly the SMTP session against that host. -/
theorem c7_amended_first_record (w : World) (email d : String) (r : MXRecord)
    (rs : List MXRecord) (h1 : splitDomain email = some d)
    (h2 : w.dns d = .ok (r :: rs)) :
    verify_smtp w email = (runSessionFull (w.smtp r.exchange email)).1 :=
  verify_smtp_eq_session w email d r rs h1 h2

theorem c7_amended_witness :
    verify_smtp wPref "z@example.com" =
      (runSessionFull (wPref.smtp "mx-b.example." "z@example.com")).1 :=
  c7_amended_first_record wPref "z@example.com" "example.com"
    ⟨20, "mx-b.example."⟩ [⟨10, "mx-a.example."⟩] (by decide) rfl

/-- C10: an address whose trimmed, lower-cased form is the literal string
`"nan"` is classified Invalid with reason `"Empty email"`, exactly as a
missing address, even when the input string is non-empty. -/
theorem c10_nan_is_empty (w : World) (email : Cell) (seen : List String)
    (u : Bool) (h : normalize email = "nan") :
    validate_email w email seen u = (false, "Empty email") := by
  unfold validate_email
  rw [if_pos (Or.inr (Or.inr h))]

theorem c10_nan_is_empty_witness :
    normalize (some "NaN") = "nan" ∧
      validate_email wAccept (some "NaN") [] false = (false, "Empty email") :=
  ⟨by decide, c10_nan_is_empty wAccept (some "NaN") [] false (by decide)⟩

/-- C3: with SMTP probing enabled and every earlier check passing, a
completed RCPT exchange with reply 250 leaves the row Valid, a completed
exchange with any other reply fails the row with `"SMTP rejected"`, and an
inconclusive probe (any step raising: timeout, disconnect, connection
failure or other SMTP-layer error) passes the row through to Valid.
(A session "completes" when connect, helo, mail and quit all succeed and
rcpt returns a reply; the source inspects the reply code only after
`server.quit()`, so an exception at any step, quit included, takes the
`None` pass-through path.) -/
theorem c3_smtp_row_outcomes (w : World) (email : Cell) (seen : List String)
    (d : String) (r : MXRecord) (rs : List MXRecord)
    (h1 : ¬(normalize email = "" ∨ normalize email = "nan"))
    (h2 : normalize email ∉ seen)
    (h3 : validate_email_syntax (normalize email) = true)
    (h4 : is_disposable_email (normalize email) = false)
    (h5 : splitDomain (normalize email) = some d)
    (h6 : w.dns d = .ok (r :: rs)) :
    (∀ code, (w.smtp r.exchange (normalize email)).connectStep = .ok →
      (w.smtp r.exchange (normalize email)).heloStep = .ok →
      (w.smtp r.exchange (normalize email)).mailStep = .ok →
      (w.smtp r.exchange (normalize email)).rcptStep = .reply code →
      (w.smtp r.exchange (normalize email)).quitStep = .ok →
      ((code = 250 → validate_email w email seen true = (true, "Valid")) ∧
       (code ≠ 250 →
         validate_email w email seen true = (false, "SMTP rejected")))) ∧
    (sessionCompletes (w.smtp r.exchange (normalize email)) = false →
      validate_email w email seen true = (true, "Valid")) := by
  have hcheck : check_mx_record w d = true := by simp [check_mx_record, h6]
  have hv := validate_smtp_branch w email seen d h1 h2 h3 h4 h5 hcheck
  have hs := verify_smtp_eq_session w (normalize email) d r rs h5 h6
  constructor
  · intro code hc hh hm hr hq
    constructor
    · intro h250
      rw [hv, hs]
      unfold runSessionFull
      rw [hc, hh, hm, hr, hq]
      simp [h250]
    · intro h250
      rw [hv, hs]
      unfold runSessionFull
      rw [hc, hh, hm, hr, hq]
      simp [h250]
  · intro hincomp
    have hn := runSession_incomplete _ hincomp
    rw [hv, hs]
    rcases hp : (runSessionFull (w.smtp r.exchange (normalize email))).1
      with ⟨f, r2⟩
    rw [hp] at hn
    simp only at hn
    subst hn
    rfl

theorem c3_smtp_row_outcomes_witness :
    validate_email wReject (some "z@example.com") [] true =
        (false, "SMTP rejected") ∧
      validate_email wTimeoutRcpt (some "z@example.com") [] true =
        (true, "Valid") :=
  ⟨((c3_smtp_row_outcomes wReject (some "z@example.com") [] "example.com"
      ⟨10, "mx.example."⟩ [] (by decide) (by simp) (by decide) (by decide)
      (by decide) rfl).1 550 rfl rfl rfl rfl rfl).2 (by decide),
   (c3_smtp_row_outcomes wTimeoutRcpt (some "z@example.com") [] "example.com"
      ⟨10, "mx.example."⟩ [] (by decide) (by simp) (by decide) (by decide)
      (by decide) rfl).2 (by decide)⟩

/-- C6: for every input, `valid_count + invalid_count` equals the row count,
and every appended status string is exactly `"Valid"` or
`"Invalid (<reason>)"` for a reason from the pipeline's closed reason set. -/
theorem c6_counts_and_statuses (w : World) (df : List Cell) (u : Bool) :
    (process_csv w df u).2.1 + (process_csv w df u).2.2 = df.length ∧
    ∀ s ∈ (process_csv w df u).1,
      s = "Valid" ∨ ∃ r ∈ REASONS, s = "Invalid (" ++ r ++ ")" := by
  constructor
  · have hlen := length_processRows w u df []
    have hcnt : (processRows w u df []).countP (fun s => s == "Valid") ≤
        (processRows w u df []).length := List.countP_le_length _
    unfold process_csv
    dsimp only
    omega
  · intro s hs
    unfold process_csv at hs
    dsimp only at hs
    exact statuses_mem w u df [] s hs

theorem c6_counts_and_statuses_witness :
    (process_csv wAccept [some "a@b.co", none] false).2.1 +
        (process_csv wAccept [some "a@b.co", none] false).2.2 = 2 ∧
      ("Valid" = "Valid" ∨
        ∃ r ∈ REASONS, "Valid" = "Invalid (" ++ r ++ ")") :=
  ⟨(c6_counts_and_statuses wAccept [some "a@b.co", none] false).1,
   (c6_counts_and_statuses wAccept [some "a@b.co", none] false).2 "Valid"
     (by decide)⟩

/-- C8: on every execution path of the probe, a connection it opened ends up
closed by the time it returns — by the successful `server.quit()` on the
normal path, and on every error path by smtplib's own release inside the
raising step (`SMTP.send` and `SMTP.getreply` close the socket on every
`OSError`, `socket.timeout` included, before raising; a failing connect
leaves no socket behind).  So no connection opened by the probe remains
open. -/
theorem c8_connection_always_closed (w : World) (email : String)
    (h : (verify_smtp_full w email).2.opened = true) :
    (verify_smtp_full w email).2.closed = true := by
  unfold verify_smtp_full at h ⊢
  cases hsd : splitDomain email with
  | none => simp [hsd] at h
  | some d =>
    simp only [hsd] at h ⊢
    cases hdns : w.dns d with
    | error err => simp [hdns] at h
    | ok recs =>
      simp only [hdns] at h ⊢
      cases hmx : mx_host_of recs with
      | none => simp [hmx] at h
      | some host =>
        simp only [hmx] at h ⊢
        rw [runSession_trace]
        exact h

theorem c8_connection_always_closed_witness :
    (verify_smtp_full wAccept "z@example.com").2.opened = true ∧
      (verify_smtp_full wAccept "z@example.com").2.closed = true :=
  ⟨by decide, c8_connection_always_closed wAccept "z@example.com" (by decide)⟩

/-- C9: the syntax validator accepts `"a@b.co"` (two-letter final label) and
rejects `"a@b.c"` (one-letter final label); in general every string the core
matcher accepts has a final dot-separated label of at least two letters. -/
theorem c9_tld_boundary :
    validate_email_syntax "a@b.co" = true ∧
    validate_email_syntax "a@b.c" = false ∧
    ∀ s : String, matchCore s.data = true →
      2 ≤ (finalLabel s).length ∧ (finalLabel s).all Char.isAlpha = true := by
  refine ⟨by decide, by decide, ?_⟩
  intro s h
  unfold matchCore at h
  cases hdrop : s.data.dropWhile (fun c => c != '@') with
  | nil => rw [hdrop] at h; simp at h
  | cons a rest =>
    rw [hdrop] at h
    have hdt : domainTailMatch rest = true := by
      simp only [Bool.and_eq_true] at h
      exact h.2
    unfold domainTailMatch at hdt
    cases hdrop2 : rest.reverse.dropWhile (fun c => c != '.') with
    | nil => rw [hdrop2] at hdt; simp at hdt
    | cons b midRev =>
      rw [hdrop2] at hdt
      simp only [Bool.and_eq_true, decide_eq_true_eq] at hdt
      obtain ⟨⟨⟨_, _⟩, hlen⟩, halpha⟩ := hdt
      have hsplit : s.data =
          s.data.takeWhile (fun c => c != '@') ++ (a :: rest) := by
        rw [← hdrop]; exact (List.takeWhile_append_dropWhile _ _).symm
      have hrev : s.data.reverse = rest.reverse ++
          (a :: (s.data.takeWhile (fun c => c != '@')).reverse) := by
        conv_lhs => rw [hsplit]
        rw [List.reverse_append, List.reverse_cons]
        simp [List.append_assoc]
      have htake : s.data.reverse.takeWhile (fun c => c != '.') =
          rest.reverse.takeWhile (fun c => c != '.') := by
        rw [hrev]
        exact takeWhile_append_left _ _ _ (by rw [hdrop2]; simp)
      constructor
      · unfold finalLabel
        rw [htake, List.length_reverse]
        exact hlen
      · unfold finalLabel
        rw [htake]
        rw [List.all_eq_true] at halpha ⊢
        intro x hx
        exact halpha x (List.mem_reverse.1 hx)

theorem c9_tld_boundary_witness :
    2 ≤ (finalLabel "x@y.com").length ∧
      (finalLabel "x@y.com").all Char.isAlpha = true :=
  c9_tld_boundary.2.2 "x@y.com" (by decide)

end EmailCleaner
